import Mathlib

/-!
Verification development for the content acquisition and normalization
pipeline of the quick-cover-backend service (`src/app.py`).

The Python functions `fetch_url_content` and `extract_text_from_html` are
shallowly embedded below.  Network effects are abstracted by an oracle
`Outcome` per attempt index, and the random jitter `random.uniform(5, 10)`
by a function `jitter : Nat -> Rat`.  Third-party parsers (pypdf, python-docx)
are abstracted by carrying their parse outcome inside the `Response`:
the repository code only consumes their results (a list of per-page optional
text strings for PDF, a list of paragraph strings for DOCX).
-/

/-- Python substring test `needle in hay` (`str.__contains__`). -/
def strContains (hay needle : String) : Bool :=
  hay.toList.tails.any (fun t => needle.toList.isPrefixOf t)

/-- Character class `[a-zA-Z0-9_-]` from the Google Drive regex in
`fetch_url_content`. -/
def idChar (c : Char) : Bool :=
  c.isAlphanum || c = '_' || c = '-'

/-- The literal part `drive\.google\.com/file/d/` of the regex
`r'drive\.google\.com/file/d/([a-zA-Z0-9_-]+)'`. -/
def gdrivePat : List Char := "drive.google.com/file/d/".toList

/-- Model of `re.search(r'drive\.google\.com/file/d/([a-zA-Z0-9_-]+)', url)`:
scan for the leftmost position where the literal pattern matches and is
followed by at least one id character; return the greedy capture group. -/
def findGdrive : List Char → Option (List Char)
  | [] => none
  | c :: cs =>
    if gdrivePat.isPrefixOf (c :: cs) then
      let idc := ((c :: cs).drop gdrivePat.length).takeWhile idChar
      if idc.isEmpty then findGdrive cs else some idc
    else findGdrive cs

/-- The Google Drive link transformation at the top of `fetch_url_content`:
a matching URL is rewritten to the direct download form, any other URL
passes through unchanged. -/
def normalizeGdriveUrl (url : String) : String :=
  match findGdrive url.toList with
  | some idc => "https://drive.google.com/uc?export=download&id=" ++ String.mk idc
  | none => url

/-- DOCX MIME string used in `fetch_url_content`. -/
def docxMime : String :=
  "application/vnd.openxmlformats-officedocument.wordprocessingml.document"

/-- Leading bytes `b'%PDF'`. -/
def pdfMagic : List Nat := [0x25, 0x50, 0x44, 0x46]

/-- Leading bytes `b'PK\x03\x04'` (ZIP local file header, used for DOCX). -/
def zipMagic : List Nat := [0x50, 0x4B, 0x03, 0x04]

/-- Python `str.lower()` (ASCII case folding, character by character). -/
def pyLower (s : String) : String :=
  String.mk (s.toList.map Char.toLower)

/-- Python `url.lower().endswith(suffix)` for an ASCII suffix. -/
def lowerEndsWith (url suffix : String) : Bool :=
  suffix.toList.isSuffixOf (pyLower url).toList

/-- Lines 109-128 of `fetch_url_content`: lower-case the declared
`Content-Type` header; if it contains the generic octet-stream value,
fall back first to the original URL's file extension, then to the payload's
magic-number signature; otherwise keep the declared value. -/
def resolveContentType (declared urlExt : String) (body : List Nat) : String :=
  let ct := pyLower declared
  if strContains ct "application/octet-stream" then
    if lowerEndsWith urlExt ".pdf" then "application/pdf"
    else if lowerEndsWith urlExt ".docx" then docxMime
    else if pdfMagic.isPrefixOf body then "application/pdf"
    else if zipMagic.isPrefixOf body then docxMime
    else ct
  else ct

/-- The five content kinds the dispatch in `fetch_url_content` distinguishes. -/
inductive ContentKind
  | pdf
  | docx
  | html
  | plainText
  | unsupported
deriving DecidableEq, Repr

/-- Lines 132-164 of `fetch_url_content`: dispatch on substring tests of the
(resolved) content-type string, in source order. -/
def dispatchKind (ct : String) : ContentKind :=
  if strContains ct "application/pdf" then .pdf
  else if strContains ct docxMime then .docx
  else if strContains ct "text/html" then .html
  else if strContains ct "text/" then .plainText
  else .unsupported

/-- Content-kind resolution: declared header, original URL and payload bytes
to a `ContentKind`. -/
def resolveKind (declared urlExt : String) (body : List Nat) : ContentKind :=
  dispatchKind (resolveContentType declared urlExt body)

/-- Per-page segments of the PDF extraction: `page.extract_text() or ""`
maps a page with no extractable text (`None`) to the empty string. -/
def pdfSegments (pages : List (Option String)) : List String :=
  pages.map (fun p => p.getD "")

/-- Python `"".join(segments)`: concatenation in order. -/
def joinAll : List String → String
  | [] => ""
  | s :: rest => s ++ joinAll rest

/-- Line 137 of `fetch_url_content`:
`"".join(page.extract_text() or "" for page in reader.pages)`. -/
def pdfExtract (pages : List (Option String)) : String :=
  joinAll (pdfSegments pages)

/-- Line 148 of `fetch_url_content`:
`"\n".join(para.text for para in doc.paragraphs)`. -/
def docxExtract (paras : List String) : String :=
  String.intercalate "\n" paras

/-- The HTML line-cleanup of `extract_text_from_html`, applied to the text
`soup.get_text()` produced: split into lines, strip each, split each line on
the two-space separator, strip the pieces, drop empties, rejoin with
newlines.  `pyStrip`, `pySplitlines` and `splitTwoSpaces` model the Python
`str.strip`, `str.splitlines` and `str.split("  ")`. -/
def isPySpace (c : Char) : Bool :=
  c = ' ' || c = '\t' || c = '\n' || c = '\r' || c = '\x0b' || c = '\x0c'

/-- Python `str.strip()` (whitespace on both ends). -/
def pyStrip (s : String) : String :=
  String.mk (((s.toList.dropWhile isPySpace).reverse.dropWhile isPySpace).reverse)

/-- Helper for the splitlines model: accumulate the current line (reversed). -/
def pySplitlinesAux : List Char → List Char → List String
  | [], acc => if acc.isEmpty then [] else [String.mk acc.reverse]
  | '\r' :: '\n' :: rest, acc => String.mk acc.reverse :: pySplitlinesAux rest []
  | '\n' :: rest, acc => String.mk acc.reverse :: pySplitlinesAux rest []
  | '\r' :: rest, acc => String.mk acc.reverse :: pySplitlinesAux rest []
  | c :: rest, acc => pySplitlinesAux rest (c :: acc)

/-- Python `str.splitlines()` restricted to the `\n`, `\r`, `\r\n`
terminators (no trailing empty line). -/
def pySplitlines (s : String) : List String :=
  pySplitlinesAux s.toList []

/-- Python `line.split("  ")`: split on each leftmost, non-overlapping
occurrence of two consecutive spaces, keeping empty pieces. -/
def splitTwoSpacesAux : List Char → List Char → List (List Char)
  | [], acc => [acc.reverse]
  | ' ' :: ' ' :: cs, acc => acc.reverse :: splitTwoSpacesAux cs []
  | c :: cs, acc => splitTwoSpacesAux cs (c :: acc)

/-- Python `s.split("  ")` on strings. -/
def splitTwoSpaces (s : String) : List String :=
  (splitTwoSpacesAux s.toList []).map String.mk

/-- Lines 209-213 of `extract_text_from_html`: per-line stripping, two-space
splitting, dropping of empty chunks, newline join. -/
def cleanupText (text : String) : String :=
  let lines := (pySplitlines text).map pyStrip
  let chunks := (lines.map (fun line => (splitTwoSpaces line).map pyStrip)).flatten
  String.intercalate "\n" (chunks.filter (fun c => !c.isEmpty))

mutual

/-- A node of the parsed HTML document tree (the shape BeautifulSoup's
`html.parser` produces on well-formed markup): an element with a tag name
and children, or a text node.  `Forest` is the list of sibling nodes,
declared mutually so that all tree traversals are structurally
recursive. -/
inductive Node where
  | elem (tag : String) (children : Forest)
  | text (s : String)

/-- A list of sibling `Node`s of an HTML document tree. -/
inductive Forest where
  | nil
  | cons (n : Node) (f : Forest)

end

/-- The tag list passed to `soup([...])` at line 202 of
`extract_text_from_html`. -/
def removedTags : List String :=
  ["script", "style", "header", "footer", "nav", "form", "aside"]

mutual

/-- Lines 202-203 of `extract_text_from_html` on one node: an element whose
tag is in `removedTags` is `decompose()`d (removed with its whole subtree),
any other node is kept with its children filtered recursively. -/
def decomposeNode : Node → Option Node
  | .text s => some (.text s)
  | .elem tag cs =>
    if removedTags.contains tag then none
    else some (.elem tag (decomposeForest cs))

/-- Lines 202-203 of `extract_text_from_html` on a forest. -/
def decomposeForest : Forest → Forest
  | .nil => .nil
  | .cons n f =>
    match decomposeNode n with
    | some m => .cons m (decomposeForest f)
    | none => decomposeForest f

end

mutual

/-- Model of `soup.get_text()` (line 206) on one node: concatenation of all text
nodes in document order, with the default empty separator. -/
def nodeText : Node → String
  | .text s => s
  | .elem _ cs => forestText cs

/-- Model of `soup.get_text()` on a forest. -/
def forestText : Forest → String
  | .nil => ""
  | .cons n f => nodeText n ++ forestText f

end

/-- The body of `extract_text_from_html` after parsing: remove the
non-content elements, take the remaining text, clean its lines up. -/
def processForest (f : Forest) : String :=
  cleanupText (forestText (decomposeForest f))

/-- Fuel-bounded parser for the well-formed fragment of HTML used by the
model: a sequence of `<tag>...</tag>` elements (no attributes) and text
runs.  Models `BeautifulSoup(html_content, 'html.parser')` on this
fragment; outside it the model returns `none`. -/
def parseNodesAux : Nat → List Char → Option (Forest × List Char)
  | 0, _ => none
  | _ + 1, [] => some (.nil, [])
  | _ + 1, '<' :: '/' :: rest => some (.nil, '<' :: '/' :: rest)
  | fuel + 1, '<' :: rest =>
    let name := rest.takeWhile (fun c => c ≠ '>')
    match rest.dropWhile (fun c => c ≠ '>') with
    | '>' :: afterOpen =>
      match parseNodesAux fuel afterOpen with
      | some (children, '<' :: '/' :: afterSlash) =>
        if name.isPrefixOf afterSlash then
          match afterSlash.drop name.length with
          | '>' :: afterClose =>
            match parseNodesAux fuel afterClose with
            | some (sibs, rem) =>
              some (.cons (Node.elem (String.mk name) children) sibs, rem)
            | none => none
          | _ => none
        else none
      | _ => none
    | _ => none
  | fuel + 1, c :: rest =>
    let txt := (c :: rest).takeWhile (fun ch => ch ≠ '<')
    match parseNodesAux fuel ((c :: rest).dropWhile (fun ch => ch ≠ '<')) with
    | some (sibs, rem) => some (.cons (Node.text (String.mk txt)) sibs, rem)
    | none => none

/-- Parse a whole document string into its top-level forest. -/
def parseHtml (s : String) : Option Forest :=
  match parseNodesAux (s.length + 1) s.toList with
  | some (ns, []) => some ns
  | _ => none

/-- Model of `extract_text_from_html` (lines 194-215): parse, decompose the
non-content elements, get the text and clean it up. -/
def extract_text_from_html (html : String) : String :=
  processForest ((parseHtml html).getD .nil)

mutual

/-- Replace the contents of every element carrying a removed tag
(script, style, header, footer, nav, form, aside) with nothing, keeping all
other structure: used to state that the extraction output cannot depend on
those contents. -/
def clearNode : Node → Node
  | .text s => .text s
  | .elem tag cs =>
    if removedTags.contains tag then .elem tag .nil
    else .elem tag (clearForest cs)

/-- Mapping of `clearNode` over a forest. -/
def clearForest : Forest → Forest
  | .nil => .nil
  | .cons n f => .cons (clearNode n) (clearForest f)

end

mutual

/-- Whether a node is or contains an element with a removed tag. -/
def nodeHasRemoved : Node → Bool
  | .text _ => false
  | .elem tag cs => removedTags.contains tag || forestHasRemoved cs

/-- Whether a forest contains an element with a removed tag. -/
def forestHasRemoved : Forest → Bool
  | .nil => false
  | .cons n f => nodeHasRemoved n || forestHasRemoved f

end

/-- The constant part of the rewritten direct-download URL. -/
def dlChars : List Char := "https://drive.google.com/uc?export=download&id=".toList

/-- A successful HTTP response, as `fetch_url_content` consumes it:
the declared `Content-Type` header, the payload bytes (`response.content`,
only the leading bytes matter to the code), the decoded text
(`response.text`), and the outcomes the third-party parsers would produce
on the payload: pypdf yields per-page optional text (`page.extract_text()`
may return `None`), python-docx yields paragraph texts; either parser may
instead raise, which the code turns into a parse-failure error. -/
structure Response where
  contentType : String
  bodyBytes : List Nat
  text : String
  pdfPages : Except String (List (Option String))
  docxParas : Except String (List String)

/-- What one network attempt (`scraper.get` + `raise_for_status`) can
produce: a transport-level failure (`RequestException`: connection error or
timeout), an HTTP error status (`HTTPError` from `raise_for_status`), or a
successful response. -/
inductive Outcome
  | transportError (msg : String)
  | httpError (status : Nat)
  | ok (resp : Response)

/-- The typed errors `fetch_url_content` raises as `HTTPException`s:
unsupported content type (status 400, carries the resolved content type),
PDF/DOCX parse failure (status 500, carries the parser error), HTTP status
failure after exhausting retries (carries the final status and the attempt
count), connection failure after exhausting retries (status 400, carries
the last error and the attempt count). -/
inductive FetchError
  | unsupported (ct : String)
  | parsePdf (msg : String)
  | parseDocx (msg : String)
  | httpStatusFailure (status : Nat) (attempts : Nat)
  | connectionFailure (msg : String) (attempts : Nat)
deriving DecidableEq, Repr

/-- What `fetch_url_content` produces: an extracted-text string, a raised
typed error, or — when the retry loop body never runs — Python's implicit
`None` return value. -/
inductive FetchResult
  | success (text : String)
  | failure (e : FetchError)
  | noneResult
deriving DecidableEq, Repr

/-- Observable outcome of the retry loop: the final result, the number of
network attempts issued (`scraper.get` calls), and the `time.sleep`
durations in order. -/
structure LoopOut where
  result : FetchResult
  attempts : Nat
  sleeps : List Rat
deriving DecidableEq, Repr

/-- Lines 103-191 of `fetch_url_content`: the retry loop.  `oracle a` is
what the network attempt with zero-based index `a` produces, `jitter a`
models `random.uniform(5, 10)` at that attempt, `urlExt` is the URL used
for extension inference (the pre-normalization URL), `maxRetries` the
`max_retries` argument.  `attempt` is the current index and `remaining`
the number of loop iterations left (`maxRetries` initially). -/
def fetchLoop (oracle : Nat → Outcome) (jitter : Nat → Rat) (urlExt : String)
    (maxRetries : Nat) : Nat → Nat → LoopOut
  | _, 0 => ⟨.noneResult, 0, []⟩
  | attempt, remaining + 1 =>
    match oracle attempt with
    | .ok resp =>
      let ct := resolveContentType resp.contentType urlExt resp.bodyBytes
      match dispatchKind ct with
      | .pdf =>
        match resp.pdfPages with
        | .ok pages => ⟨.success (pdfExtract pages), 1, []⟩
        | .error e => ⟨.failure (.parsePdf e), 1, []⟩
      | .docx =>
        match resp.docxParas with
        | .ok paras => ⟨.success (docxExtract paras), 1, []⟩
        | .error e => ⟨.failure (.parseDocx e), 1, []⟩
      | .html => ⟨.success (extract_text_from_html resp.text), 1, []⟩
      | .plainText => ⟨.success resp.text, 1, []⟩
      | .unsupported => ⟨.failure (.unsupported ct), 1, []⟩
    | .httpError status =>
      if attempt < maxRetries - 1 then
        if [403, 404, 503].contains status then
          let rest := fetchLoop oracle jitter urlExt maxRetries (attempt + 1) remaining
          ⟨rest.result, rest.attempts + 1, ((5 * attempt : Nat) + jitter attempt) :: rest.sleeps⟩
        else
          let rest := fetchLoop oracle jitter urlExt maxRetries (attempt + 1) remaining
          ⟨rest.result, rest.attempts + 1, ((2 : Rat) ^ attempt) :: rest.sleeps⟩
      else ⟨.failure (.httpStatusFailure status maxRetries), 1, []⟩
    | .transportError msg =>
      if attempt < maxRetries - 1 then
        let rest := fetchLoop oracle jitter urlExt maxRetries (attempt + 1) remaining
        ⟨rest.result, rest.attempts + 1, ((2 : Rat) ^ attempt) :: rest.sleeps⟩
      else ⟨.failure (.connectionFailure msg maxRetries), 1, []⟩

/-- Observable outcome of a whole `fetch_url_content` call: the URL the
GET requests are issued against (post-normalization), and the loop's
result, attempt count and sleeps. -/
structure FetchOutcome where
  requestUrl : String
  result : FetchResult
  attempts : Nat
  sleeps : List Rat
deriving DecidableEq, Repr

/-- Model of `fetch_url_content(url, max_retries)` (lines 73-191): transform a
Google Drive share link into its direct-download form (the original URL is
kept for extension inference) and run the retry loop. -/
def fetch_url_content (oracle : Nat → Outcome) (jitter : Nat → Rat)
    (url : String) (maxRetries : Nat) : FetchOutcome :=
  let requestUrl := normalizeGdriveUrl url
  let lo := fetchLoop oracle jitter url maxRetries 0 maxRetries
  ⟨requestUrl, lo.result, lo.attempts, lo.sleeps⟩

/-- C10: calling `fetch_url_content` with `max_retries = 0` never runs the
retry loop body, so no network attempt is issued, no sleep happens, and the
function falls off the loop returning Python's implicit `None` — neither an
extracted-text string nor a typed error, despite the declared `-> str`
return type. -/
theorem c10_zero_retries_returns_none (oracle : Nat → Outcome) (jitter : Nat → Rat)
    (url : String) :
    fetch_url_content oracle jitter url 0 =
      ⟨normalizeGdriveUrl url, FetchResult.noneResult, 0, []⟩ := rfl

/-- C2: a successful response whose resolved content kind is UNSUPPORTED
makes `fetch_url_content` fail at once with the unsupported-content-type
error carrying the resolved content type: exactly one network attempt is
issued at this point and no retry sleep happens, however many attempts
remain. -/
theorem c2_unsupported_fails_immediately (oracle : Nat → Outcome) (jitter : Nat → Rat)
    (urlExt : String) (maxRetries attempt remaining : Nat) (resp : Response)
    (ho : oracle attempt = Outcome.ok resp)
    (hk : resolveKind resp.contentType urlExt resp.bodyBytes = ContentKind.unsupported) :
    fetchLoop oracle jitter urlExt maxRetries attempt (remaining + 1) =
      ⟨FetchResult.failure (FetchError.unsupported
        (resolveContentType resp.contentType urlExt resp.bodyBytes)), 1, []⟩ := by
  rw [fetchLoop, ho]
  simp only [resolveKind] at hk
  simp [hk]

/-- Witness for C2 at Scenario F: `Content-Type: application/zip`, five
retries allowed, immediate failure with no sleep after one attempt. -/
theorem c2_witness :
    resolveKind "application/zip" "http://e" [] = ContentKind.unsupported ∧
    fetchLoop (fun _ => Outcome.ok ⟨"application/zip", [], "", Except.ok [], Except.ok []⟩)
        (fun _ => 7) "http://e" 5 0 5 =
      ⟨FetchResult.failure (FetchError.unsupported "application/zip"), 1, []⟩ :=
  ⟨rfl, c2_unsupported_fails_immediately _ _ "http://e" 5 0 4
    ⟨"application/zip", [], "", Except.ok [], Except.ok []⟩ rfl rfl⟩

/-- C5: the PDF extractor concatenates exactly one text segment per page,
in page order; a page yielding no extractable text (`None`, mapped by
`or ""`) contributes an empty segment; and for every page list the fetch
succeeds with the concatenation — extraction never aborts on empty pages. -/
theorem c5_pdf_page_segments :
    (∀ pages : List (Option String),
      (pdfSegments pages).length = pages.length ∧
        pdfExtract pages = joinAll (pdfSegments pages)) ∧
    (pdfExtract [] = "" ∧ ∀ (p : Option String) (rest : List (Option String)),
      pdfExtract (p :: rest) = p.getD "" ++ pdfExtract rest) ∧
    (∀ (pages : List (Option String)) (i : Nat) (h1 : i < pages.length)
        (h2 : i < (pdfSegments pages).length),
      pages.get ⟨i, h1⟩ = none → (pdfSegments pages).get ⟨i, h2⟩ = "") ∧
    ∀ (oracle : Nat → Outcome) (jitter : Nat → Rat) (urlExt : String)
        (maxRetries attempt remaining : Nat) (resp : Response)
        (pages : List (Option String)),
      oracle attempt = Outcome.ok resp →
      resolveKind resp.contentType urlExt resp.bodyBytes = ContentKind.pdf →
      resp.pdfPages = Except.ok pages →
      fetchLoop oracle jitter urlExt maxRetries attempt (remaining + 1) =
        ⟨FetchResult.success (pdfExtract pages), 1, []⟩ := by
  refine ⟨fun pages => ⟨by simp [pdfSegments], rfl⟩, ⟨rfl, fun p rest => rfl⟩,
    fun pages i h1 h2 h => ?_, fun oracle jitter urlExt k a r resp pages ho hk hp => ?_⟩
  · rw [List.get_eq_getElem] at h
    simp [pdfSegments, List.get_eq_getElem, List.getElem_map, h]
  · rw [fetchLoop, ho]
    simp only [resolveKind] at hk
    simp [hk, hp]

/-- Witness for C5: a three-page document whose middle page has no
extractable text yields the in-order concatenation with an empty middle
segment, and the middle segment is the empty string. -/
theorem c5_witness :
    fetchLoop
        (fun _ => Outcome.ok
          ⟨"application/pdf", [], "", Except.ok [some "A", none, some "B"], Except.ok []⟩)
        (fun _ => 7) "http://e" 5 0 5 =
      ⟨FetchResult.success "AB", 1, []⟩ ∧
    (pdfSegments [some "A", none, some "B"]).get ⟨1, by simp [pdfSegments]⟩ = "" :=
  ⟨c5_pdf_page_segments.2.2.2 _ _ "http://e" 5 0 4
      ⟨"application/pdf", [], "", Except.ok [some "A", none, some "B"], Except.ok []⟩
      [some "A", none, some "B"] rfl rfl rfl,
    c5_pdf_page_segments.2.2.1 [some "A", none, some "B"] 1 (by simp) (by simp [pdfSegments]) rfl⟩

/-- C8: a Google Drive file-view URL is rewritten to the provider's
direct-download form before any GET is issued (`requestUrl` is the URL all
attempts use); the concrete Scenario B instance rewrites as specified; and
URLs the pattern does not match pass through unchanged. -/
theorem c8_gdrive_url_rewrite (oracle : Nat → Outcome) (jitter : Nat → Rat) (k : Nat) :
    (fetch_url_content oracle jitter
        "https://drive.google.com/file/d/ABC123/view" k).requestUrl =
      "https://drive.google.com/uc?export=download&id=ABC123" ∧
    (∀ (url : String) (idc : List Char), findGdrive url.toList = some idc →
      (fetch_url_content oracle jitter url k).requestUrl =
        "https://drive.google.com/uc?export=download&id=" ++ String.mk idc) ∧
    ∀ url : String, findGdrive url.toList = none →
      (fetch_url_content oracle jitter url k).requestUrl = url := by
  refine ⟨rfl, fun url idc h => ?_, fun url h => ?_⟩ <;>
  · simp only [String.toList] at h
    simp [fetch_url_content, normalizeGdriveUrl, h]

/-- Witness for C8: a plain URL without the file-view pattern is fetched
unchanged. -/
theorem c8_witness :
    (fetch_url_content (fun _ => Outcome.httpError 404) (fun _ => 7)
        "http://example.com/cv.pdf" 5).requestUrl = "http://example.com/cv.pdf" :=
  (c8_gdrive_url_rewrite _ _ 5).2.2 "http://example.com/cv.pdf" rfl

/-- The retry loop issues at most `remaining` network attempts: each
iteration accounts for exactly one `scraper.get` call. -/
theorem fetchLoop_attempts_le (oracle : Nat → Outcome) (jitter : Nat → Rat)
    (urlExt : String) (k : Nat) :
    ∀ r a, (fetchLoop oracle jitter urlExt k a r).attempts ≤ r := by
  intro r
  induction r with
  | zero => intro a; simp [fetchLoop]
  | succ r ih =>
    intro a
    rcases h : oracle a with m | s | resp
    · rw [fetchLoop, h]
      dsimp only
      split
      · exact Nat.succ_le_succ (ih (a + 1))
      · dsimp only
        omega
    · rw [fetchLoop, h]
      dsimp only
      split
      · split
        · exact Nat.succ_le_succ (ih (a + 1))
        · exact Nat.succ_le_succ (ih (a + 1))
      · dsimp only
        omega
    · rw [fetchLoop, h]
      dsimp only
      cases hd : dispatchKind (resolveContentType resp.contentType urlExt resp.bodyBytes)
      · cases hp : resp.pdfPages <;> simp [hp]
      · cases hp : resp.docxParas <;> simp [hp]
      all_goals dsimp only; omega

/-- C3: with `maxRetries = 5` against a server answering 404 on every
attempt, the fetch issues exactly 5 network attempts and fails with the
HTTP-status failure carrying status 404 and attempt count 5; in general a
fetch with `max_retries = k` issues at most `k` network attempts. -/
theorem c3_http_404_five_attempts :
    (∀ (oracle : Nat → Outcome) (jitter : Nat → Rat) (url : String),
      (∀ i, oracle i = Outcome.httpError 404) →
      (fetch_url_content oracle jitter url 5).result =
          FetchResult.failure (FetchError.httpStatusFailure 404 5) ∧
        (fetch_url_content oracle jitter url 5).attempts = 5) ∧
    ∀ (oracle : Nat → Outcome) (jitter : Nat → Rat) (url : String) (k : Nat),
      (fetch_url_content oracle jitter url k).attempts ≤ k := by
  constructor
  · intro oracle jitter url h
    have ho : oracle = fun _ => Outcome.httpError 404 := funext h
    subst ho
    exact ⟨rfl, rfl⟩
  · intro oracle jitter url k
    exact fetchLoop_attempts_le oracle jitter url k k 0

/-- Witness for C3 at Scenario D. -/
theorem c3_witness :
    (fetch_url_content (fun _ => Outcome.httpError 404) (fun _ => 7) "http://e" 5).result =
        FetchResult.failure (FetchError.httpStatusFailure 404 5) ∧
      (fetch_url_content (fun _ => Outcome.httpError 404) (fun _ => 7) "http://e" 5).attempts = 5 :=
  c3_http_404_five_attempts.1 _ _ "http://e" (fun _ => rfl)

/-- C4: with attempts remaining (`attempt < max_retries - 1`), the delay
slept before the next retry is determined by the failure kind and the
zero-based attempt index: an error status in {403, 404, 503} sleeps
`5 * attempt + random.uniform(5, 10)` seconds, any other error status
sleeps `2 ^ attempt` seconds, and a transport-level failure also sleeps
`2 ^ attempt` seconds; the jittered delay lies in
`[5 * attempt + 5, 5 * attempt + 10]`. -/
theorem c4_backoff_policy (oracle : Nat → Outcome) (jitter : Nat → Rat)
    (urlExt : String) (maxRetries attempt remaining : Nat)
    (hrem : attempt < maxRetries - 1) :
    (∀ s : Nat, oracle attempt = Outcome.httpError s →
      [403, 404, 503].contains s = true →
      fetchLoop oracle jitter urlExt maxRetries attempt (remaining + 1) =
        ⟨(fetchLoop oracle jitter urlExt maxRetries (attempt + 1) remaining).result,
          (fetchLoop oracle jitter urlExt maxRetries (attempt + 1) remaining).attempts + 1,
          ((5 * attempt : Nat) + jitter attempt) ::
            (fetchLoop oracle jitter urlExt maxRetries (attempt + 1) remaining).sleeps⟩) ∧
    (∀ s : Nat, oracle attempt = Outcome.httpError s →
      [403, 404, 503].contains s = false →
      fetchLoop oracle jitter urlExt maxRetries attempt (remaining + 1) =
        ⟨(fetchLoop oracle jitter urlExt maxRetries (attempt + 1) remaining).result,
          (fetchLoop oracle jitter urlExt maxRetries (attempt + 1) remaining).attempts + 1,
          ((2 : Rat) ^ attempt) ::
            (fetchLoop oracle jitter urlExt maxRetries (attempt + 1) remaining).sleeps⟩) ∧
    (∀ msg : String, oracle attempt = Outcome.transportError msg →
      fetchLoop oracle jitter urlExt maxRetries attempt (remaining + 1) =
        ⟨(fetchLoop oracle jitter urlExt maxRetries (attempt + 1) remaining).result,
          (fetchLoop oracle jitter urlExt maxRetries (attempt + 1) remaining).attempts + 1,
          ((2 : Rat) ^ attempt) ::
            (fetchLoop oracle jitter urlExt maxRetries (attempt + 1) remaining).sleeps⟩) ∧
    (5 ≤ jitter attempt → jitter attempt ≤ 10 →
      5 * (attempt : Rat) + 5 ≤ ((5 * attempt : Nat) : Rat) + jitter attempt ∧
        ((5 * attempt : Nat) : Rat) + jitter attempt ≤ 5 * (attempt : Rat) + 10) := by
  refine ⟨fun s ho hs => ?_, fun s ho hs => ?_, fun m ho => ?_, fun h5 h10 => ?_⟩
  · rw [fetchLoop, ho]
    dsimp only
    rw [if_pos hrem, hs]
    simp
  · rw [fetchLoop, ho]
    dsimp only
    rw [if_pos hrem, hs]
    simp
  · rw [fetchLoop, ho]
    dsimp only
    rw [if_pos hrem]
  · push_cast
    constructor <;> linarith

/-- Witness for C4: attempt 0 of 5 hitting a 503 sleeps the linear-jitter
delay and recurses. -/
theorem c4_witness :
    (0 < 5 - 1 ∧ [403, 404, 503].contains 503 = true) ∧
    fetchLoop (fun _ => Outcome.httpError 503) (fun _ => 7) "http://e" 5 0 5 =
      ⟨(fetchLoop (fun _ => Outcome.httpError 503) (fun _ => 7) "http://e" 5 1 4).result,
        (fetchLoop (fun _ => Outcome.httpError 503) (fun _ => 7) "http://e" 5 1 4).attempts + 1,
        ((5 * 0 : Nat) + (7 : Rat)) ::
          (fetchLoop (fun _ => Outcome.httpError 503) (fun _ => 7) "http://e" 5 1 4).sleeps⟩ :=
  ⟨⟨by omega, rfl⟩,
    (c4_backoff_policy (fun _ => Outcome.httpError 503) (fun _ => 7) "http://e" 5 0 4
      (by omega)).1 503 rfl rfl⟩

/-- Counterexample to C1 as stated: with an *empty* declared content-type
header, the code never reaches byte-signature sniffing — the fallback block
only runs when the header contains the octet-stream value — so a payload
beginning with `%PDF` is classified UNSUPPORTED, not PDF. -/
theorem c1_counterexample :
    pdfMagic.isPrefixOf [0x25, 0x50, 0x44, 0x46, 0x2D] = true ∧
    resolveKind "" "http://example.com/resume" [0x25, 0x50, 0x44, 0x46, 0x2D] ≠
      ContentKind.pdf ∧
    resolveKind "" "http://example.com/resume" [0x25, 0x50, 0x44, 0x46, 0x2D] =
      ContentKind.unsupported := by
  exact ⟨rfl, by decide, rfl⟩

/-- C1 amended: byte-signature sniffing happens exactly when the declared
header contains the generic octet-stream value (an empty header skips it):
then, if the original URL carries no `.pdf`/`.docx` suffix, a `%PDF` byte
prefix classifies the resource as PDF, a `PK 0x03 0x04` byte prefix
classifies it as DOCX, and if neither signature matches it is classified
UNSUPPORTED. -/
theorem c1_octet_stream_sniffing (url : String) (body : List Nat)
    (hp : lowerEndsWith url ".pdf" = false)
    (hd : lowerEndsWith url ".docx" = false) :
    (pdfMagic.isPrefixOf body = true →
      resolveKind "application/octet-stream" url body = ContentKind.pdf) ∧
    (pdfMagic.isPrefixOf body = false → zipMagic.isPrefixOf body = true →
      resolveKind "application/octet-stream" url body = ContentKind.docx) ∧
    (pdfMagic.isPrefixOf body = false → zipMagic.isPrefixOf body = false →
      resolveKind "application/octet-stream" url body = ContentKind.unsupported) := by
  have hoct : strContains (pyLower "application/octet-stream")
      "application/octet-stream" = true := rfl
  refine ⟨fun h1 => ?_, fun h1 h2 => ?_, fun h1 h2 => ?_⟩
  · simp only [resolveKind, resolveContentType]
    rw [hoct, hp, hd, h1]
    rfl
  · simp only [resolveKind, resolveContentType]
    rw [hoct, hp, hd, h1, h2]
    rfl
  · simp only [resolveKind, resolveContentType]
    rw [hoct, hp, hd, h1, h2]
    rfl

/-- Witness for the amended C1 at Scenario E: a generic octet-stream header
with a `%PDF`-prefixed body resolves to PDF. -/
theorem c1_witness :
    lowerEndsWith "http://example.com/resume" ".pdf" = false ∧
    lowerEndsWith "http://example.com/resume" ".docx" = false ∧
    resolveKind "application/octet-stream" "http://example.com/resume"
      [0x25, 0x50, 0x44, 0x46, 0x2D] = ContentKind.pdf :=
  ⟨rfl, rfl,
    (c1_octet_stream_sniffing "http://example.com/resume"
      [0x25, 0x50, 0x44, 0x46, 0x2D] rfl rfl).1 rfl⟩

/-- C6: fetching a URL whose response declares `text/html` and carries the
Scenario A body yields exactly `"Hello\nWorld"`: the script element is
removed, the remaining text is split into lines, trimmed, split on runs of
spaces, empty fragments dropped and rejoined with newlines. -/
theorem c6_html_scenario_a (oracle : Nat → Outcome) (jitter : Nat → Rat)
    (url : String) (maxRetries : Nat) (resp : Response)
    (hk : 0 < maxRetries)
    (ho : oracle 0 = Outcome.ok resp)
    (hct : resp.contentType = "text/html")
    (hbody : resp.text = "<html><body><script>x</script><p>Hello  World</p></body></html>") :
    (fetch_url_content oracle jitter url maxRetries).result =
      FetchResult.success ("Hello\nWorld") := by
  obtain ⟨r, rfl⟩ : ∃ r, maxRetries = r + 1 := ⟨maxRetries - 1, by omega⟩
  have hres : resolveContentType resp.contentType url resp.bodyBytes = "text/html" := by
    rw [hct]
    rfl
  have hdis : dispatchKind (resolveContentType resp.contentType url resp.bodyBytes) =
      ContentKind.html := by
    rw [hres]
    rfl
  simp only [fetch_url_content]
  rw [fetchLoop, ho]
  dsimp only
  rw [hdis, hbody]
  rfl

/-- Witness for C6 at the concrete Scenario A response. -/
theorem c6_witness :
    (fetch_url_content
        (fun _ => Outcome.ok ⟨"text/html", [],
          "<html><body><script>x</script><p>Hello  World</p></body></html>",
          Except.ok [], Except.ok []⟩)
        (fun _ => 7) "http://example.com/jd" 5).result =
      FetchResult.success ("Hello\nWorld") :=
  c6_html_scenario_a _ _ "http://example.com/jd" 5
    ⟨"text/html", [], "<html><body><script>x</script><p>Hello  World</p></body></html>",
      Except.ok [], Except.ok []⟩
    (by omega) rfl rfl rfl

mutual

/-- Decomposition is blind to the contents of removed-tag elements. -/
theorem decomposeNode_clear : ∀ n : Node, decomposeNode (clearNode n) = decomposeNode n
  | .text _ => rfl
  | .elem tag cs => by
    by_cases h : tag ∈ removedTags <;>
      simp [clearNode, decomposeNode, h, decomposeForest_clear cs]

/-- Decomposition of a forest is blind to the contents of removed-tag
elements. -/
theorem decomposeForest_clear : ∀ f : Forest, decomposeForest (clearForest f) = decomposeForest f
  | .nil => rfl
  | .cons n f => by
    simp [clearForest, decomposeForest, decomposeNode_clear n, decomposeForest_clear f]

end

mutual

/-- A node surviving decomposition contains no removed-tag element. -/
theorem decomposeNode_no_removed :
    ∀ n m : Node, decomposeNode n = some m → nodeHasRemoved m = false
  | .text s, m, h => by
    simp only [decomposeNode, Option.some.injEq] at h
    subst h
    rfl
  | .elem tag cs, m, h => by
    by_cases hc : tag ∈ removedTags <;> simp [decomposeNode, hc] at h
    subst h
    simp [nodeHasRemoved, hc, decomposeForest_no_removed cs]

/-- A decomposed forest contains no removed-tag element. -/
theorem decomposeForest_no_removed :
    ∀ f : Forest, forestHasRemoved (decomposeForest f) = false
  | .nil => rfl
  | .cons n f => by
    cases hn : decomposeNode n with
    | none => simp [decomposeForest, hn, decomposeForest_no_removed f]
    | some m =>
      simp [decomposeForest, hn, forestHasRemoved,
        decomposeNode_no_removed n m hn, decomposeForest_no_removed f]

end

/-- C7: the extracted text of an HTML document never contains the contents
of its script/style (or other removed-tag) elements: the output is
invariant under replacing all such contents with nothing, because those
elements are removed before text extraction — no removed-tag element
survives decomposition. -/
theorem c7_removed_elements_never_emitted :
    ∀ f : Forest,
      processForest (clearForest f) = processForest f ∧
      forestHasRemoved (decomposeForest f) = false :=
  fun f => ⟨by simp [processForest, decomposeForest_clear f],
    decomposeForest_no_removed f⟩

/-- A Boolean list-pattern match gives an explicit append decomposition. -/
theorem isPrefixOf_exists : ∀ p s : List Char, p.isPrefixOf s = true → ∃ t, s = p ++ t
  | [], s, _ => ⟨s, rfl⟩
  | _ :: _, [], h => by simp [List.isPrefixOf] at h
  | a :: p, b :: s, h => by
    simp only [List.isPrefixOf, Bool.and_eq_true, beq_iff_eq] at h
    obtain ⟨t, ht⟩ := isPrefixOf_exists p s h.2
    exact ⟨t, by rw [ht, h.1]; rfl⟩

/-- Every character of a captured Drive file id is an id character. -/
theorem findGdrive_chars : ∀ cs idc : List Char,
    findGdrive cs = some idc → ∀ c ∈ idc, idChar c = true := by
  intro cs
  induction cs with
  | nil => intro idc h; simp [findGdrive] at h
  | cons a cs ih =>
    intro idc h
    simp only [findGdrive] at h
    split at h
    · split at h
      · exact ih idc h
      · intro c hc
        cases h
        exact List.mem_takeWhile_imp hc
    · exact ih idc h

/-- A string of id characters alone can never match the Drive pattern:
the pattern contains a dot, which is not an id character. -/
theorem findGdrive_idOnly : ∀ l : List Char,
    (∀ c ∈ l, idChar c = true) → findGdrive l = none := by
  intro l
  induction l with
  | nil => intro _; rfl
  | cons a cs ih =>
    intro h
    have hnp : gdrivePat.isPrefixOf (a :: cs) = false := by
      by_contra hb
      rw [Bool.not_eq_false] at hb
      obtain ⟨t, ht⟩ := isPrefixOf_exists _ _ hb
      have hdot : '.' ∈ a :: cs := by
        rw [ht]
        exact List.mem_append_left t (by decide)
      have := h '.' hdot
      simp [idChar] at this
    rw [findGdrive, hnp]
    simp only [Bool.false_eq_true, if_false]
    exact ih fun c hc => h c (List.mem_cons_of_mem a hc)

/-- No suffix of the direct-download prefix begins with the Drive
file-view pattern. -/
theorem dl_no_pat : ∀ j, j < 48 → ¬((dlChars.drop j).take 24 = gdrivePat) := by
  decide

/-- Scanning a suffix of the direct-download prefix followed by id
characters never finds the Drive file-view pattern: an occurrence wholly
inside the constant prefix is ruled out by `dl_no_pat`, and an occurrence
reaching into the id characters would need a slash there. -/
theorem findGdrive_dl_append : ∀ l1 l2 : List Char,
    (∃ pre, pre ++ l1 = dlChars) → (∀ c ∈ l2, idChar c = true) →
    findGdrive (l1 ++ l2) = none
  | [], l2, _, h2 => by
    simpa using findGdrive_idOnly l2 h2
  | a :: l1, l2, ⟨pre, hpre⟩, h2 => by
    have hnp : gdrivePat.isPrefixOf ((a :: l1) ++ l2) = false := by
      by_contra hb
      rw [Bool.not_eq_false] at hb
      obtain ⟨t, ht⟩ := isPrefixOf_exists _ _ hb
      have hgp : gdrivePat.length = 24 := rfl
      have hdl : dlChars.length = 47 := rfl
      have hlen : (a :: l1).length + l2.length = 24 + t.length := by
        have h6 := congrArg List.length ht
        rw [List.length_append, List.length_append, hgp] at h6
        exact h6
      rcases le_or_lt 24 (a :: l1).length with h24 | h24
      · have htake : (a :: l1).take 24 = gdrivePat := by
          calc (a :: l1).take 24 = ((a :: l1) ++ l2).take 24 :=
                (List.take_append_of_le_length h24).symm
            _ = (gdrivePat ++ t).take 24 := by rw [ht]
            _ = gdrivePat := by
                rw [List.take_append_of_le_length (by decide)]
                decide
        have hd : a :: l1 = dlChars.drop pre.length := by
          rw [← hpre, List.drop_left]
        have hlt : pre.length < 48 := by
          have h5 := congrArg List.length hpre
          rw [List.length_append] at h5
          omega
        exact dl_no_pat pre.length hlt (by rw [← hd]; exact htake)
      · have hsplit : gdrivePat = (a :: l1) ++ l2.take (24 - (a :: l1).length) := by
          calc gdrivePat = (gdrivePat ++ t).take 24 := by
                rw [List.take_append_of_le_length (by decide)]
                decide
            _ = ((a :: l1) ++ l2).take 24 := by rw [ht]
            _ = (a :: l1).take 24 ++ l2.take (24 - (a :: l1).length) :=
                List.take_append_eq_append_take
            _ = (a :: l1) ++ l2.take (24 - (a :: l1).length) := by
                rw [List.take_of_length_le (le_of_lt h24)]
        have hne : l2.take (24 - (a :: l1).length) ≠ [] := by
          intro he
          rcases List.take_eq_nil_iff.mp he with h0 | h0
          · omega
          · rw [h0] at hlen
            simp only [List.length_nil] at hlen
            omega
        have hlast : (l2.take (24 - (a :: l1).length)).getLast? = some '/' := by
          have h1 : gdrivePat.getLast? = some '/' := by decide
          rw [hsplit, List.getLast?_append_of_ne_nil _ hne] at h1
          exact h1
        have hmem : '/' ∈ l2 :=
          List.mem_of_mem_take (List.mem_of_getLast?_eq_some hlast)
        have := h2 '/' hmem
        simp [idChar] at this
    rw [List.cons_append] at hnp
    rw [List.cons_append, findGdrive, hnp]
    simp only [Bool.false_eq_true, if_false]
    exact findGdrive_dl_append l1 l2 ⟨pre ++ [a], by rw [← hpre]; simp⟩ h2

/-- C9: the Google Drive link normalization is idempotent — normalizing an
already-normalized URL (in particular an already-direct-download URL) is a
no-op, for every URL string. -/
theorem c9_normalize_idempotent :
    ∀ u : String, normalizeGdriveUrl (normalizeGdriveUrl u) = normalizeGdriveUrl u := by
  intro u
  cases h : findGdrive u.toList with
  | none =>
    simp only [normalizeGdriveUrl]
    rw [h]
    rw [h]
  | some idc =>
    have hch := findGdrive_chars u.toList idc h
    have hto : ("https://drive.google.com/uc?export=download&id=" ++ String.mk idc).toList =
        dlChars ++ idc := rfl
    have hnone : findGdrive (("https://drive.google.com/uc?export=download&id=" ++
        String.mk idc).toList) = none := by
      rw [hto]
      exact findGdrive_dl_append dlChars idc ⟨[], rfl⟩ hch
    simp only [normalizeGdriveUrl]
    rw [h, hnone]
